import Mathlib

/-!
# Verification of the cesium-measure measurement engine

Shallow embedding of the `Measure` / `DistanceMeasure` / `DistanceSurfaceMeasure` /
`AreaMeasure` class hierarchy (src, single bundled module) together with the parts of
its dependencies (`@turf/helpers`'s `polygon` validation, `@turf/area`'s spherical ring
area) that decide the claims under examination.

Numeric values are modelled as real numbers (the source computes with IEEE doubles);
external scene capabilities (terrain ray-picking, world-to-window projection,
ECEF-to-geodetic conversion, the ellipsoid geodesic solver of `cesium`) are fields of
a `Scene` record, since the source reaches them only through the viewer object.
Fallible operations (turf's polygon construction, which throws on invalid rings) are
modelled with `Except`.
-/

namespace CesiumMeasure

/-- Screen/window coordinates (`Cartesian2` of cesium). -/
structure Cartesian2 where
  x : ℝ
  y : ℝ

/-- A 3D point in the global Cartesian (ECEF-like) frame (`Cartesian3` of cesium). -/
structure Cartesian3 where
  x : ℝ
  y : ℝ
  z : ℝ

/-- Geodetic coordinates (`Cartographic` of cesium): longitude and latitude in
radians, height in meters. -/
structure Cartographic where
  longitude : ℝ
  latitude : ℝ
  height : ℝ

/-- The external scene capabilities the engine consumes (spec §6).  Each field
stands for one cesium facility used by the source:
* `pickPosition` — `viewer.scene.pickPosition`, the terrain ray pick, which may fail;
* `worldToWindow` — `SceneTransforms.worldToWindowCoordinates`;
* `toCartographic` — `Cartographic.fromCartesian` /
  `scene.globe.ellipsoid.cartesianToCartographic` (ECEF to geodetic);
* `geodesicSurfaceDistance` — `EllipsoidGeodesic.setEndPoints` followed by reading
  `surfaceDistance`. -/
structure Scene where
  pickPosition : Cartesian2 → Option Cartesian3
  worldToWindow : Cartesian3 → Cartesian2
  toCartographic : Cartesian3 → Cartographic
  geodesicSurfaceDistance : Cartographic → Cartographic → ℝ

/-! ## Session lifecycle (class `Measure`)

The observable mutable state of a `Measure` instance: its `_status` field, the label
collection, the drawer, whether the tooltip has been destroyed and whether the label
collection is still among the scene primitives.  Label styling constants and the
drawer callbacks are presentation plumbing that no claim observes and are elided. -/

/-- The `Status` type of the source: `'INIT' | 'WORKING' | 'DESTROY'`. -/
inductive Status where
  | INIT
  | WORKING
  | DESTROY
deriving DecidableEq, Repr

/-- Observable drawer state: `drawer.reset()` puts it back to `idle`;
`drawer.start({type, ...})` records the started geometry type and the
`clampToGround` flag passed in the dynamic/final options. -/
inductive DrawerState where
  | idle
  | started (type : String) (clampToGround : Option Bool)
deriving DecidableEq, Repr

/-- A rendered label: position plus displayed text (style constants elided). -/
structure Label where
  position : Cartesian3
  text : String

/-- Observable state of a `Measure` session. -/
structure MeasureState where
  status : Status
  labels : List Label
  drawer : DrawerState
  tooltipDestroyed : Bool
  labelsInScene : Bool

/-- `get destroyed()`: `return this._status === "DESTROY"`. -/
def Measure.destroyed (s : MeasureState) : Bool :=
  s.status == Status.DESTROY

/-- `Measure.end()`: `this.drawer.reset(); this._labels.removeAll(); this._status = "INIT"`. -/
def Measure.end' (s : MeasureState) : MeasureState :=
  { s with drawer := DrawerState.idle, labels := [], status := Status.INIT }

/-- `Measure.destroy()`: calls `end()`, destroys the tooltip, removes the label
collection from the scene primitives (the viewer is assumed alive, as in the
source's non-destroyed-viewer branch) and sets the status to `"DESTROY"`. -/
def Measure.destroy (s : MeasureState) : MeasureState :=
  let s1 := Measure.end' s
  { s1 with tooltipDestroyed := true, labelsInScene := false, status := Status.DESTROY }

/-- `Measure._start(type, options)`: returns immediately unless the status is
`"INIT"`; otherwise starts the drawer with the given type and `clampToGround`
option and moves to `"WORKING"`. -/
def Measure.startProtected (type : String) (clampToGround : Option Bool)
    (s : MeasureState) : MeasureState :=
  if s.status ≠ Status.INIT then s
  else { s with drawer := DrawerState.started type clampToGround,
                status := Status.WORKING }

/-- `DistanceMeasure.start(style)`: `this._start("POLYLINE", { style, clampToGround: false })`. -/
def DistanceMeasure.start (s : MeasureState) : MeasureState :=
  Measure.startProtected "POLYLINE" (some false) s

/-- `DistanceSurfaceMeasure.start(style)`: `this._start("POLYLINE", { clampToGround: true, style })`. -/
def DistanceSurfaceMeasure.start (s : MeasureState) : MeasureState :=
  Measure.startProtected "POLYLINE" (some true) s

/-- `AreaMeasure.start(style)`: `this.end(); this._start("POLYGON", { style })`
(no `clampToGround` in the options object). -/
def AreaMeasure.start (s : MeasureState) : MeasureState :=
  Measure.startProtected "POLYGON" none (Measure.end' s)

/-- A concrete destroyed session (as produced by `destroy()` from a fresh state). -/
def exDestroyed : MeasureState :=
  Measure.destroy { status := Status.INIT, labels := [], drawer := DrawerState.idle,
                    tooltipDestroyed := false, labelsInScene := true }

/-- A concrete `WORKING` session carrying one rendered label. -/
def exWorking : MeasureState :=
  { status := Status.WORKING,
    labels := [{ position := { x := 1, y := 2, z := 3 }, text := "D: 5meters" }],
    drawer := DrawerState.started "POLYGON" none,
    tooltipDestroyed := false, labelsInScene := true }

/-! ## Theorems: lifecycle claims -/

/-- C1 (counterexample): the claim "any mutating public operation on a DESTROYED
session raises a lifecycle error and leaves no observable state mutation" is false
on the code: no lifecycle error exists anywhere in the source, and
`AreaMeasure.start()` on the concrete destroyed session `exDestroyed` mutates the
status from `DESTROY` to `WORKING` (because it runs `end()` first, which
unconditionally resets the status to `INIT`). -/
theorem c1_destroyed_start_mutates :
    exDestroyed.status = Status.DESTROY ∧
    (AreaMeasure.start exDestroyed).status = Status.WORKING := by
  constructor <;> rfl

/-- C1 (amended): on a DESTROYED session no error is raised and the actual behavior
splits by class: `DistanceMeasure.start` (and `DistanceSurfaceMeasure.start`, via the
guard in `_start`) is a silent no-op leaving the whole state unchanged, while
`AreaMeasure.start` first runs `end()` and therefore clears the labels, resets the
drawer and restarts the session in the `WORKING` state. -/
theorem c1_destroyed_start_behavior (s : MeasureState)
    (h : s.status = Status.DESTROY) :
    DistanceMeasure.start s = s ∧
    DistanceSurfaceMeasure.start s = s ∧
    (AreaMeasure.start s).status = Status.WORKING ∧
    (AreaMeasure.start s).labels = [] := by
  refine ⟨?_, ?_, ?_, ?_⟩
  · unfold DistanceMeasure.start Measure.startProtected
    rw [if_pos]; rw [h]; simp
  · unfold DistanceSurfaceMeasure.start Measure.startProtected
    rw [if_pos]; rw [h]; simp
  · rfl
  · rfl

/-- C1 witness: the amended statement instantiated at the concrete destroyed session. -/
theorem c1_destroyed_start_behavior_witness :
    exDestroyed.status = Status.DESTROY ∧
    (DistanceMeasure.start exDestroyed = exDestroyed ∧
     DistanceSurfaceMeasure.start exDestroyed = exDestroyed ∧
     (AreaMeasure.start exDestroyed).status = Status.WORKING ∧
     (AreaMeasure.start exDestroyed).labels = []) :=
  ⟨rfl, c1_destroyed_start_behavior exDestroyed rfl⟩

/-- C8 (counterexample): the claim "for every session whose state is not INIT,
calling start() is a no-op" is false on the code: on the concrete `WORKING` session
`exWorking` (which carries one label), `AreaMeasure.start()` clears the label list,
because it runs `end()` before the `INIT` guard of `_start` is consulted. -/
theorem c8_working_start_not_noop :
    exWorking.status ≠ Status.INIT ∧
    (AreaMeasure.start exWorking).labels ≠ exWorking.labels := by
  constructor
  · intro h; exact Status.noConfusion h
  · intro h; exact List.noConfusion h.symm

/-- C8 (amended): `_start` — and with it `DistanceMeasure.start` and
`DistanceSurfaceMeasure.start`, which call it directly — is a no-op whenever the
status is not `INIT`; `AreaMeasure.start` is the exception: it first runs `end()`,
so from any state it clears the labels, restarts the drawer with type `"POLYGON"`
and lands in `WORKING`. -/
theorem c8_start_noop_unless_init (s : MeasureState) (type : String)
    (cg : Option Bool) (h : s.status ≠ Status.INIT) :
    Measure.startProtected type cg s = s ∧
    DistanceMeasure.start s = s ∧
    DistanceSurfaceMeasure.start s = s ∧
    AreaMeasure.start s =
      { s with labels := [], drawer := DrawerState.started "POLYGON" none,
               status := Status.WORKING } := by
  refine ⟨?_, ?_, ?_, ?_⟩
  · unfold Measure.startProtected
    rw [if_pos h]
  · unfold DistanceMeasure.start Measure.startProtected
    rw [if_pos h]
  · unfold DistanceSurfaceMeasure.start Measure.startProtected
    rw [if_pos h]
  · unfold AreaMeasure.start Measure.end' Measure.startProtected
    simp

/-- C8 witness: the amended statement instantiated at the concrete `WORKING` session. -/
theorem c8_start_noop_unless_init_witness :
    exWorking.status ≠ Status.INIT ∧
    (Measure.startProtected "POLYLINE" none exWorking = exWorking ∧
     DistanceMeasure.start exWorking = exWorking ∧
     DistanceSurfaceMeasure.start exWorking = exWorking ∧
     AreaMeasure.start exWorking =
       { exWorking with labels := [],
                        drawer := DrawerState.started "POLYGON" none,
                        status := Status.WORKING }) :=
  ⟨fun h => Status.noConfusion h,
   c8_start_noop_unless_init exWorking "POLYLINE" none (fun h => Status.noConfusion h)⟩

/-! ## Planar distance engine (class `DistanceMeasure`)

`getDistance` is `Cartesian3.distance`, the Euclidean 3D distance.
`_updateLabelTexts` walks the vertex sequence keeping a running `distance`
accumulator: for each consecutive pair it computes
`newDis = +this.getDistance(...).toFixed(2)` (the raw meters distance rounded to 2
decimal places), then `distance += newDis; distance = +distance.toFixed(2)`, and
publishes `distance` in the label text through the locale formatter.  The string
assembly and the unit-converted display copies are presentation and are elided; the
embedding keeps the exact numeric accumulator values the labels publish. -/

/-- `+x.toFixed(2)`: rounding to two decimal places (round to nearest). -/
noncomputable def round2 (x : ℝ) : ℝ :=
  (round (x * 100) : ℤ) / 100

/-- `Cartesian3.distance` of cesium: the Euclidean distance, i.e.
`DistanceMeasure.getDistance`. -/
noncomputable def cart3Distance (p q : Cartesian3) : ℝ :=
  Real.sqrt ((p.x - q.x) ^ 2 + (p.y - q.y) ^ 2 + (p.z - q.z) ^ 2)

/-- The list of consecutive pairs of a vertex sequence (`positions[i-1], positions[i]`
for `i = 1 .. length-1`). -/
def consecPairs {α : Type} (l : List α) : List (α × α) :=
  l.zip l.tail

/-- The raw (un-rounded) per-segment distances of `_updateLabelTexts`. -/
noncomputable def rawSegmentDistances (ps : List Cartesian3) : List ℝ :=
  (consecPairs ps).map fun ab => cart3Distance ab.1 ab.2

/-- The loop of `_updateLabelTexts`, restricted to its `distance` accumulator: from
the running value `acc`, each raw segment distance `d` is first rounded
(`newDis = +d.toFixed(2)`), added (`distance += newDis`) and the sum is rounded
again (`distance = +distance.toFixed(2)`); the function returns the successive
published accumulator values. -/
noncomputable def totalsFrom (acc : ℝ) : List ℝ → List ℝ
  | [] => []
  | d :: ds =>
      let acc' := round2 (acc + round2 d)
      acc' :: totalsFrom acc' ds

/-- The running totals published by `DistanceMeasure._updateLabelTexts` in the
labels of vertices `1 .. n-1` (vertex 0 publishes only the "start" marker). -/
noncomputable def publishedTotals (ps : List Cartesian3) : List ℝ :=
  totalsFrom 0 (rawSegmentDistances ps)

/-- `x` is an integer number of hundredths. -/
def isCenti (x : ℝ) : Prop := ∃ m : ℤ, x = m / 100

theorem isCenti_round2 (x : ℝ) : isCenti (round2 x) :=
  ⟨round (x * 100), rfl⟩

theorem isCenti_add {x y : ℝ} (hx : isCenti x) (hy : isCenti y) : isCenti (x + y) := by
  obtain ⟨m, rfl⟩ := hx
  obtain ⟨k, rfl⟩ := hy
  exact ⟨m + k, by push_cast; ring⟩

theorem round2_eq_self {x : ℝ} (hx : isCenti x) : round2 x = x := by
  obtain ⟨m, rfl⟩ := hx
  unfold round2
  rw [div_mul_cancel₀ _ (by norm_num : (100 : ℝ) ≠ 0), round_intCast]

theorem totalsFrom_length (acc : ℝ) (ds : List ℝ) :
    (totalsFrom acc ds).length = ds.length := by
  induction ds generalizing acc with
  | nil => rfl
  | cons d ds ih => simp [totalsFrom, ih]

theorem totalsFrom_getD (ds : List ℝ) (acc : ℝ) (hacc : isCenti acc) (k : ℕ)
    (hk : k < ds.length) :
    (totalsFrom acc ds).getD k 0 = acc + ((ds.take (k + 1)).map round2).sum := by
  induction ds generalizing acc k with
  | nil => simp at hk
  | cons d ds ih =>
      have hstep : round2 (acc + round2 d) = acc + round2 d :=
        round2_eq_self (isCenti_add hacc (isCenti_round2 d))
      cases k with
      | zero => simp [totalsFrom, hstep]
      | succ k =>
          have hk' : k < ds.length := Nat.lt_of_succ_lt_succ hk
          have h2 := ih (round2 (acc + round2 d))
            (by rw [hstep]; exact isCenti_add hacc (isCenti_round2 d)) k hk'
          simp only [totalsFrom, List.getD_cons_succ]
          rw [h2, hstep, List.take_succ_cons, List.map_cons, List.sum_cons]
          ring

/-- C4: in `DistanceMeasure._updateLabelTexts`, each per-segment distance is rounded
to 2 decimal places (in meters, the working unit) before accumulation, and every
published running total equals the sum of the already-rounded increments — not a
rounding of the raw sum: the `k`-th published accumulator value is exactly
`Σ round2(dᵢ)` over the first `k+1` raw segment distances (the re-rounding
`distance = +distance.toFixed(2)` is the identity on such sums, since they are
integer multiples of 1/100). -/
theorem c4_published_total_is_sum_of_rounded (ps : List Cartesian3) (k : ℕ)
    (hk : k < (rawSegmentDistances ps).length) :
    (publishedTotals ps).getD k 0 =
      (((rawSegmentDistances ps).take (k + 1)).map round2).sum := by
  have := totalsFrom_getD (rawSegmentDistances ps) 0 ⟨0, by norm_num⟩ k hk
  simpa [publishedTotals] using this

/-- Concrete three-vertex polyline whose segment distances are 5 and 12 meters. -/
def exPolyline : List Cartesian3 :=
  [{ x := 0, y := 0, z := 0 }, { x := 3, y := 4, z := 0 }, { x := 3, y := 4, z := 12 }]

/-- C4 witness: the theorem applied to the concrete polyline `exPolyline` at the
final label index `k = 1`; the length-bound hypothesis is discharged by computing
the length of the segment list (which does not depend on any square root). -/
theorem c4_published_total_is_sum_of_rounded_witness :
    1 < (rawSegmentDistances exPolyline).length ∧
    (publishedTotals exPolyline).getD 1 0 =
      (((rawSegmentDistances exPolyline).take 2).map round2).sum := by
  have hlen : 1 < (rawSegmentDistances exPolyline).length := by
    simp [rawSegmentDistances, consecPairs, exPolyline]
  exact ⟨hlen, c4_published_total_is_sum_of_rounded exPolyline 1 hlen⟩

/-! ## Surface distance engine (class `DistanceSurfaceMeasure`) -/

/-- `pickCartesian3(viewer, position)`, i.e. `viewer.scene.pickPosition(position)`:
terrain ray pick, which may fail (return `undefined`). -/
def pickCartesian3 (sc : Scene) (position : Cartesian2) : Option Cartesian3 :=
  sc.pickPosition position

/-- The default `splitNum` of the `DistanceSurfaceMeasure` constructor:
`options.splitNum ?? 100`. -/
def defaultSplitNum : ℕ := 100

/-- `DistanceSurfaceMeasure._findWindowPositionByPixelInterval`: the point of the
screen-space segment at distance `interval` from its start; when the segment's
screen length is strictly less than `interval` the fixed window-origin point
`(0, 0)` is returned instead. -/
noncomputable def findWindowPositionByPixelInterval
    (startPosition endPosition : Cartesian2) (interval : ℝ) : Cartesian2 :=
  let length := Real.sqrt ((endPosition.x - startPosition.x) ^ 2 +
    (endPosition.y - startPosition.y) ^ 2)
  if length < interval then { x := 0, y := 0 }
  else { x := interval / length * (endPosition.x - startPosition.x) + startPosition.x,
         y := interval / length * (endPosition.y - startPosition.y) + startPosition.y }

/-- `DistanceSurfaceMeasure._calculateDetailSurfaceLength`: terrain-picks both
screen points; when both picks succeed, converts them to geodetic coordinates and
returns `sqrt(geodesicSurfaceDistance² + Δheight²)`; when either pick fails,
`innerS` keeps its initial value `0`. -/
noncomputable def calculateDetailSurfaceLength (sc : Scene)
    (startPoint endPoint : Cartesian2) : ℝ :=
  match pickCartesian3 sc startPoint, pickCartesian3 sc endPoint with
  | some surfaceStart, some surfaceEnd =>
      let cartographicStart := sc.toCartographic surfaceStart
      let cartographicEnd := sc.toCartographic surfaceEnd
      let geoS := sc.geodesicSurfaceDistance cartographicStart cartographicEnd
      Real.sqrt (geoS ^ 2 + (cartographicStart.height - cartographicEnd.height) ^ 2)
  | _, _ => 0

/-- The `interval` of `_calculateSurfaceDistance`.  The source computes
`Math.sqrt(Math.pow(endPoint.x - startPoint.x, 2) + (endPoint.y - startPoint.y, 2))
/ this._splitNum`; the second addend is the JavaScript comma expression
`(endPoint.y - startPoint.y, 2)`, which evaluates to the constant `2` — not
`Math.pow(endPoint.y - startPoint.y, 2)`. -/
noncomputable def surfaceSampleInterval (startPoint endPoint : Cartesian2)
    (splitNum : ℕ) : ℝ :=
  Real.sqrt ((endPoint.x - startPoint.x) ^ 2 + 2) / splitNum

/-- The `sampleWindowPoints` array of `_calculateSurfaceDistance`: the start point,
then for `ii = 1 .. splitNum` the segment point at distance `ii * interval`, then
the end point pushed once more. -/
noncomputable def sampleWindowPoints (startPoint endPoint : Cartesian2)
    (splitNum : ℕ) : List Cartesian2 :=
  [startPoint] ++
    (List.range splitNum).map (fun ii : ℕ =>
      findWindowPositionByPixelInterval startPoint endPoint
        (((ii : ℝ) + 1) * surfaceSampleInterval startPoint endPoint splitNum)) ++
  [endPoint]

/-- `DistanceSurfaceMeasure._calculateSurfaceDistance`: sums
`_calculateDetailSurfaceLength(sampleWindowPoints[jj+1], sampleWindowPoints[jj])`
over consecutive sample pairs (note the source passes the later point first). -/
noncomputable def calculateSurfaceDistance (sc : Scene)
    (startPoint endPoint : Cartesian2) (splitNum : ℕ) : ℝ :=
  let pts := sampleWindowPoints startPoint endPoint splitNum
  ((pts.zip pts.tail).map fun ab => calculateDetailSurfaceLength sc ab.2 ab.1).sum

/-- `DistanceSurfaceMeasure.getDistance(pos1, pos2)`: projects both world points to
window coordinates and runs `_calculateSurfaceDistance` on them. -/
noncomputable def DistanceSurfaceMeasure.getDistance (sc : Scene) (splitNum : ℕ)
    (pos1 pos2 : Cartesian3) : ℝ :=
  calculateSurfaceDistance sc (sc.worldToWindow pos1) (sc.worldToWindow pos2) splitNum

/-! ## Theorems: surface distance claims -/

/-- C10: whenever the requested along-segment distance strictly exceeds the
screen-space length of the segment, `_findWindowPositionByPixelInterval` returns
the fixed window-origin point `(0, 0)` rather than a point on the segment (and the
callers in `_calculateSurfaceDistance` then feed that origin point to the terrain
pick in `_calculateDetailSurfaceLength`). -/
theorem c10_interval_beyond_length_returns_origin
    (startPosition endPosition : Cartesian2) (interval : ℝ)
    (h : Real.sqrt ((endPosition.x - startPosition.x) ^ 2 +
          (endPosition.y - startPosition.y) ^ 2) < interval) :
    findWindowPositionByPixelInterval startPosition endPosition interval =
      { x := 0, y := 0 } := by
  unfold findWindowPositionByPixelInterval
  exact if_pos h

/-- C10 witness: for the segment from `(0,0)` to `(3,4)` (screen length 5) and
requested distance 6, the function returns the window origin. -/
theorem c10_interval_beyond_length_returns_origin_witness :
    Real.sqrt ((3 - 0 : ℝ) ^ 2 + (4 - 0 : ℝ) ^ 2) < 6 ∧
    findWindowPositionByPixelInterval { x := 0, y := 0 } { x := 3, y := 4 } 6 =
      { x := 0, y := 0 } := by
  have h5 : Real.sqrt ((3 - 0 : ℝ) ^ 2 + (4 - 0 : ℝ) ^ 2) = 5 := by
    rw [show ((3 - 0 : ℝ) ^ 2 + (4 - 0 : ℝ) ^ 2) = 5 ^ 2 by norm_num]
    exact Real.sqrt_sq (by norm_num)
  have h : Real.sqrt ((3 - 0 : ℝ) ^ 2 + (4 - 0 : ℝ) ^ 2) < 6 := by
    rw [h5]; norm_num
  exact ⟨h, c10_interval_beyond_length_returns_origin _ _ 6 h⟩

/-- Helper: the origin-return branch of `_findWindowPositionByPixelInterval`. -/
theorem findWindow_origin_of_lt (s e : Cartesian2) (i : ℝ)
    (h : Real.sqrt ((e.x - s.x) ^ 2 + (e.y - s.y) ^ 2) < i) :
    findWindowPositionByPixelInterval s e i = { x := 0, y := 0 } := by
  unfold findWindowPositionByPixelInterval
  exact if_pos h

/-- Helper: on a vertical screen segment from `(0,0)` to `(0,Y)`, a requested
distance `i ≤ Y` lands at `(0, i)`. -/
theorem findWindow_vertical (Y i : ℝ) (hY : 0 < Y) (hi : ¬ Y < i) :
    findWindowPositionByPixelInterval { x := 0, y := 0 } { x := 0, y := Y } i =
      { x := 0, y := i } := by
  unfold findWindowPositionByPixelInterval
  have hL : Real.sqrt (((0 : ℝ) - 0) ^ 2 + (Y - 0) ^ 2) = Y := by
    rw [show ((0 : ℝ) - 0) ^ 2 + (Y - 0) ^ 2 = Y ^ 2 by ring]
    exact Real.sqrt_sq hY.le
  simp only [hL]
  rw [if_neg hi]
  have hY0 : Y ≠ 0 := hY.ne'
  simp only [Cartesian2.mk.injEq]
  constructor
  · ring
  · field_simp

theorem sqrt_two_lt_two : Real.sqrt 2 < 2 := by
  nlinarith [Real.sq_sqrt (show (0 : ℝ) ≤ 2 by norm_num), Real.sqrt_nonneg 2]

theorem sqrt_two_pos : (0 : ℝ) < Real.sqrt 2 :=
  Real.sqrt_pos.2 (by norm_num)

/-- C2 (code evaluated at the failing input): the sample-point construction of
`_calculateSurfaceDistance` does not subdivide the segment into `splitNum` equal
sub-intervals with `splitNum + 1` sample points.  Structurally it always produces
`splitNum + 2` sample points (the endpoint is pushed again after the loop), and the
comma-operator typo in the interval — `sqrt(dx² + 2) / splitNum` instead of
`sqrt(dx² + dy²) / splitNum` — makes the spacings unequal: for the screen segment
`(0,0) → (0,10)` with `splitNum = 2` the samples are
`(0,0), (0,√2/2), (0,√2), (0,10)`, with gaps `√2/2, √2/2, 10 − √2`. -/
theorem c2_sampling_typo :
    (∀ (s e : Cartesian2) (n : ℕ), (sampleWindowPoints s e n).length = n + 2) ∧
    sampleWindowPoints { x := 0, y := 0 } { x := 0, y := 10 } 2 =
      [{ x := 0, y := 0 }, { x := 0, y := Real.sqrt 2 / 2 },
       { x := 0, y := Real.sqrt 2 }, { x := 0, y := 10 }] ∧
    (10 : ℝ) - Real.sqrt 2 ≠ Real.sqrt 2 / 2 := by
  refine ⟨?_, ?_, ?_⟩
  · intro s e n
    simp only [sampleWindowPoints, List.length_append, List.length_map,
      List.length_range, List.length_cons, List.length_nil]
    omega
  · have hint : surfaceSampleInterval { x := 0, y := 0 } { x := 0, y := 10 } 2 =
        Real.sqrt 2 / 2 := by
      unfold surfaceSampleInterval
      norm_num
    have hrange : List.range 2 = [0, 1] := rfl
    have h1 : findWindowPositionByPixelInterval { x := 0, y := 0 }
        { x := 0, y := 10 } (((0 : ℝ) + 1) * (Real.sqrt 2 / 2)) =
        { x := 0, y := Real.sqrt 2 / 2 } := by
      rw [show ((0 : ℝ) + 1) * (Real.sqrt 2 / 2) = Real.sqrt 2 / 2 by ring]
      exact findWindow_vertical 10 _ (by norm_num)
        (by push_neg; nlinarith [sqrt_two_lt_two, sqrt_two_pos])
    have h2 : findWindowPositionByPixelInterval { x := 0, y := 0 }
        { x := 0, y := 10 } (((1 : ℝ) + 1) * (Real.sqrt 2 / 2)) =
        { x := 0, y := Real.sqrt 2 } := by
      rw [show ((1 : ℝ) + 1) * (Real.sqrt 2 / 2) = Real.sqrt 2 by ring]
      exact findWindow_vertical 10 _ (by norm_num)
        (by push_neg; nlinarith [sqrt_two_lt_two, sqrt_two_pos])
    simp only [sampleWindowPoints, hint, hrange, List.map_cons, List.map_nil,
      Nat.cast_zero, Nat.cast_one, h1, h2]
    rfl
  · intro h
    nlinarith [sqrt_two_lt_two, sqrt_two_pos]

/-- A scene whose terrain pick always fails (no terrain under any pixel). -/
noncomputable def noneScene : Scene where
  pickPosition := fun _ => none
  worldToWindow := fun c => { x := c.x, y := c.y }
  toCartographic := fun c => { longitude := c.x, latitude := c.y, height := c.z }
  geodesicSurfaceDistance := fun _ _ => 0

/-- A scene whose terrain pick always succeeds at one fixed surface point (a
degenerate flat pick, for which the geodesic distance between the picked
geodetic points — always the same point — is 0). -/
noncomputable def flatScene : Scene where
  pickPosition := fun _ => some { x := 0, y := 0, z := 0 }
  worldToWindow := fun c => { x := c.x, y := c.y }
  toCartographic := fun c => { longitude := c.x, latitude := c.y, height := c.z }
  geodesicSurfaceDistance := fun _ _ => 0

/-- Helper: when every pick fails, every per-pair surface length is 0, so the
summed surface distance is 0. -/
theorem calculateSurfaceDistance_eq_zero_of_pick_none (sc : Scene)
    (h : ∀ w, sc.pickPosition w = none) (s e : Cartesian2) (n : ℕ) :
    calculateSurfaceDistance sc s e n = 0 := by
  unfold calculateSurfaceDistance
  apply List.sum_eq_zero
  intro x hx
  obtain ⟨ab, _, rfl⟩ := List.mem_map.1 hx
  unfold calculateDetailSurfaceLength pickCartesian3
  rw [h, h]

/-- Helper: in `flatScene` every per-pair surface length is 0 (both picks return
the same surface point), so the summed surface distance is 0. -/
theorem calculateSurfaceDistance_flatScene (s e : Cartesian2) (n : ℕ) :
    calculateSurfaceDistance flatScene s e n = 0 := by
  unfold calculateSurfaceDistance
  apply List.sum_eq_zero
  intro x hx
  obtain ⟨ab, _, rfl⟩ := List.mem_map.1 hx
  unfold calculateDetailSurfaceLength pickCartesian3 flatScene
  simp

/-- C5 (counterexample to the "caller is informed" part): the engine reports
picking gaps nowhere — it returns a bare number.  Concretely, the run over the
segment `(0,0) → (0,10)` with `splitNum = 2` in `noneScene` (every terrain pick
fails, so the whole path is made of picking gaps) returns exactly the same value,
`0`, as the gap-free run in `flatScene` (every pick succeeds): the output carries
no breakdown field or partial-result flag distinguishing them. -/
theorem c5_no_partial_result_indicator :
    calculateSurfaceDistance noneScene { x := 0, y := 0 } { x := 0, y := 10 } 2 = 0 ∧
    calculateSurfaceDistance flatScene { x := 0, y := 0 } { x := 0, y := 10 } 2 = 0 ∧
    calculateSurfaceDistance noneScene { x := 0, y := 0 } { x := 0, y := 10 } 2 =
      calculateSurfaceDistance flatScene { x := 0, y := 0 } { x := 0, y := 10 } 2 := by
  have h1 := calculateSurfaceDistance_eq_zero_of_pick_none noneScene
    (fun _ => rfl) { x := 0, y := 0 } { x := 0, y := 10 } 2
  have h2 := calculateSurfaceDistance_flatScene
    { x := 0, y := 0 } { x := 0, y := 10 } 2
  exact ⟨h1, h2, h1.trans h2.symm⟩

/-- C5 (amended): whenever a terrain pick fails for either endpoint of a sample
pair, `_calculateDetailSurfaceLength` returns 0 for that portion — it is a total
function, so no exception is raised — but the caller is NOT informed that picking
gaps occurred: no breakdown field or partial-result flag exists in the code. -/
theorem c5_pick_failure_contributes_zero (sc : Scene) (s e : Cartesian2)
    (h : pickCartesian3 sc s = none ∨ pickCartesian3 sc e = none) :
    calculateDetailSurfaceLength sc s e = 0 := by
  unfold calculateDetailSurfaceLength
  rcases h with h | h
  · rw [h]
  · rw [h]
    rcases pickCartesian3 sc s with _ | p <;> rfl

/-- C5 witness: the amended statement at a concrete failing pick. -/
theorem c5_pick_failure_contributes_zero_witness :
    pickCartesian3 noneScene { x := 1, y := 2 } = none ∧
    calculateDetailSurfaceLength noneScene { x := 1, y := 2 } { x := 3, y := 4 } = 0 :=
  ⟨rfl, c5_pick_failure_contributes_zero noneScene _ _ (Or.inl rfl)⟩

/-- A scene where the terrain pick succeeds everywhere, returning a surface point
whose geodetic coordinates sit at longitude/latitude 0 with height equal to the sum
of the window coordinates (e.g. a terrain wall sampled through different pixels).
Since every picked point has the same longitude and latitude, the geodesic surface
distance between any two of them is 0, which the `geodesicSurfaceDistance`
capability reports. -/
noncomputable def exScene : Scene where
  pickPosition := fun w => some { x := 0, y := 0, z := w.x + w.y }
  worldToWindow := fun c => { x := c.x, y := c.y }
  toCartographic := fun c => { longitude := c.x, latitude := c.y, height := c.z }
  geodesicSurfaceDistance := fun _ _ => 0

/-- A concrete world point, projecting to window coordinates `(5, 5)` in `exScene`. -/
noncomputable def exCoincident : Cartesian3 := { x := 5, y := 5, z := 0 }

/-- C6 (counterexample to the surface-engine part): for the coincident pair
`(exCoincident, exCoincident)` the surface distance engine returns `20`, not `0`.
Because of the interval expression `sqrt(dx² + 2)/splitNum`, the interval is
positive even for a zero-length screen segment, so every interior sample is
`_findWindowPositionByPixelInterval`'s fallback `(0, 0)`; the terrain picks at the
window origin and at the point's own pixel land at different heights, and the two
boundary sample pairs each contribute 10 meters. -/
theorem c6_surface_coincident_nonzero :
    DistanceSurfaceMeasure.getDistance exScene 2 exCoincident exCoincident = 20 ∧
    (20 : ℝ) ≠ 0 := by
  refine ⟨?_, by norm_num⟩
  have hint : surfaceSampleInterval { x := 5, y := 5 } { x := 5, y := 5 } 2 =
      Real.sqrt 2 / 2 := by
    unfold surfaceSampleInterval
    norm_num
  have hfw : ∀ r : ℝ, 0 < r →
      findWindowPositionByPixelInterval { x := 5, y := 5 } { x := 5, y := 5 } r =
        { x := 0, y := 0 } := by
    intro r hr
    apply findWindow_origin_of_lt
    simpa using hr
  have hrange : List.range 2 = [0, 1] := rfl
  have hsamples : sampleWindowPoints { x := 5, y := 5 } { x := 5, y := 5 } 2 =
      [{ x := 5, y := 5 }, { x := 0, y := 0 }, { x := 0, y := 0 },
       { x := 5, y := 5 }] := by
    have h1 := hfw (((0 : ℝ) + 1) * (Real.sqrt 2 / 2)) (by nlinarith [sqrt_two_pos])
    have h2 := hfw (((1 : ℝ) + 1) * (Real.sqrt 2 / 2)) (by nlinarith [sqrt_two_pos])
    simp only [sampleWindowPoints, hint, hrange, List.map_cons, List.map_nil,
      Nat.cast_zero, Nat.cast_one, h1, h2]
    rfl
  have hd1 : calculateDetailSurfaceLength exScene { x := 0, y := 0 }
      { x := 5, y := 5 } = 10 := by
    unfold calculateDetailSurfaceLength pickCartesian3 exScene
    simp only
    rw [show ((0 : ℝ)) ^ 2 + (((0 : ℝ) + 0) - ((5 : ℝ) + 5)) ^ 2 = 10 ^ 2 by norm_num]
    exact Real.sqrt_sq (by norm_num)
  have hd2 : calculateDetailSurfaceLength exScene { x := 0, y := 0 }
      { x := 0, y := 0 } = 0 := by
    unfold calculateDetailSurfaceLength pickCartesian3 exScene
    simp only
    rw [show ((0 : ℝ)) ^ 2 + (((0 : ℝ) + 0) - ((0 : ℝ) + 0)) ^ 2 = 0 by norm_num]
    exact Real.sqrt_zero
  have hd3 : calculateDetailSurfaceLength exScene { x := 5, y := 5 }
      { x := 0, y := 0 } = 10 := by
    unfold calculateDetailSurfaceLength pickCartesian3 exScene
    simp only
    rw [show ((0 : ℝ)) ^ 2 + (((5 : ℝ) + 5) - ((0 : ℝ) + 0)) ^ 2 = 10 ^ 2 by norm_num]
    exact Real.sqrt_sq (by norm_num)
  unfold DistanceSurfaceMeasure.getDistance
  show calculateSurfaceDistance exScene { x := 5, y := 5 } { x := 5, y := 5 } 2 = 20
  unfold calculateSurfaceDistance
  rw [hsamples]
  simp only [List.tail_cons, List.zip_cons_cons, List.zip_nil_right, List.map_cons,
    List.map_nil, List.sum_cons, List.sum_nil, hd1, hd2, hd3]
  norm_num

/-- C6 (amended): for coincident points the planar `getDistance` is 0 — a finite
value — and the surface engine's result is 0 whenever the terrain picks involved
fail (e.g. no terrain under the cursor); but it need not be 0 in general, since the
coincident segment is sampled at the window origin, whose pick can land elsewhere
on terrain. -/
theorem c6_coincident_zero (p : Cartesian3) (sc : Scene)
    (hpick : ∀ w, sc.pickPosition w = none) (n : ℕ) :
    cart3Distance p p = 0 ∧
    DistanceSurfaceMeasure.getDistance sc n p p = 0 := by
  constructor
  · unfold cart3Distance
    rw [show (p.x - p.x) ^ 2 + (p.y - p.y) ^ 2 + (p.z - p.z) ^ 2 = 0 by ring]
    exact Real.sqrt_zero
  · unfold DistanceSurfaceMeasure.getDistance
    exact calculateSurfaceDistance_eq_zero_of_pick_none sc hpick _ _ n

/-- C6 witness: the amended statement at a concrete point in the all-picks-fail
scene. -/
theorem c6_coincident_zero_witness :
    (∀ w, noneScene.pickPosition w = none) ∧
    (cart3Distance { x := 1, y := 2, z := 3 } { x := 1, y := 2, z := 3 } = 0 ∧
     DistanceSurfaceMeasure.getDistance noneScene 100
       { x := 1, y := 2, z := 3 } { x := 1, y := 2, z := 3 } = 0) :=
  ⟨fun _ => rfl,
   c6_coincident_zero { x := 1, y := 2, z := 3 } noneScene (fun _ => rfl) 100⟩

/-! ## Planar area engine (class `AreaMeasure`)

`getArea` converts each vertex to (longitude, latitude) degrees, builds a turf
polygon whose single ring is the vertex list with the first vertex re-appended,
and computes its spherical area with `@turf/area`.  Both turf functions are
embedded here because they decide the claims: `polygon` of `@turf/helpers`
validates the ring (throwing when it has fewer than 4 positions or when the first
and last position differ — modelled with `Except`), and `area` takes the absolute
value of a spherical ring-area sum (Chamberlain–Duquette style) scaled by the
WGS84 radius. -/

/-- `Cesium.Math.toDegrees`. -/
noncomputable def toDegrees (radians : ℝ) : ℝ := radians * 180 / Real.pi

/-- `Measure._cartesian2Lonlat`: `[toDegrees(longitude), toDegrees(latitude)]` for
each position, via the ellipsoid's `cartesianToCartographic`. -/
noncomputable def cartesian2Lonlat (sc : Scene) (positions : List Cartesian3) :
    List (ℝ × ℝ) :=
  positions.map fun pos =>
    (toDegrees (sc.toCartographic pos).longitude,
     toDegrees (sc.toCartographic pos).latitude)

open Classical in
/-- The ring validation of `polygon` in `@turf/helpers`: a linear ring must have
at least 4 positions and its first and last position must coincide; otherwise the
constructor throws. -/
noncomputable def turfPolygonRing (ring : List (ℝ × ℝ)) :
    Except String (List (ℝ × ℝ)) :=
  if ring.length < 4 then
    Except.error "Each LinearRing of a Polygon must have 4 or more Positions."
  else if ring.getLastD (0, 0) ≠ ring.headD (0, 0) then
    Except.error "First and last Position are not equivalent."
  else Except.ok ring

/-- The WGS84 radius constant of `@turf/helpers` (meters). -/
noncomputable def wgs84Radius : ℝ := 6378137

/-- Degrees to radians, as in `@turf/area`'s `rad` helper. -/
noncomputable def rad (num : ℝ) : ℝ := num * Real.pi / 180

/-- `ringArea` of `@turf/area`: over the ring array (closing duplicate included),
`total = Σᵢ (rad(lon[upper]) - rad(lon[lower])) * sin(rad(lat[middle]))` with
`lower = i`, `middle = (i+1) mod N`, `upper = (i+2) mod N` (the source writes the
two wrap-around iterations as explicit branches), then
`total * RADIUS * RADIUS / 2`; rings with at most 2 positions give 0. -/
noncomputable def turfRingArea (coords : List (ℝ × ℝ)) : ℝ :=
  if 2 < coords.length then
    (∑ i in Finset.range coords.length,
        (rad (coords.getD ((i + 2) % coords.length) (0, 0)).1 -
            rad (coords.getD i (0, 0)).1) *
          Real.sin (rad (coords.getD ((i + 1) % coords.length) (0, 0)).2)) *
      wgs84Radius * wgs84Radius / 2
  else 0

/-- `polygonArea` of `@turf/area`: the absolute ring area of the outer ring minus
the absolute ring areas of the holes. -/
noncomputable def turfPolygonArea (rings : List (List (ℝ × ℝ))) : ℝ :=
  match rings with
  | [] => 0
  | outer :: holes => |turfRingArea outer| - (holes.map fun r => |turfRingArea r|).sum

/-- `AreaMeasure.getArea`: builds the closed ring by re-appending the first
lon/lat (the caller passes the open vertex list) and evaluates the turf polygon
area; turf's ring validation can throw, hence the `Except`.  (For an empty input
the source's `lonlats[0]` is `undefined`; the resulting 1-element ring fails the
same length validation, which the default value of `headD` reproduces.) -/
noncomputable def AreaMeasure.getArea (sc : Scene) (positions : List Cartesian3) :
    Except String ℝ := do
  let ring ← turfPolygonRing
    (cartesian2Lonlat sc positions ++ [(cartesian2Lonlat sc positions).headD (0, 0)])
  Except.ok (turfPolygonArea [ring])

/-- `mean` of `utils.ts`: `array.reduce((a, c) => a + c, 0) / array.length`. -/
noncomputable def mean (array : List ℝ) : ℝ := array.sum / array.length

/-- `AreaMeasure._updateLabelFunc` composed with `_updateLabelTexts`, at the level
of the label data: all labels are removed; with fewer than 3 positions the
function returns before adding any label or computing any area; otherwise a single
label is placed at the coordinate-wise mean carrying the rounded area value
`+this.getArea(positions).toFixed(2)` (string formatting and display-unit
conversion elided). -/
noncomputable def AreaMeasure.updateLabels (sc : Scene) (positions : List Cartesian3) :
    Except String (List (Cartesian3 × ℝ)) :=
  if positions.length < 3 then Except.ok []
  else do
    let area2 ← AreaMeasure.getArea sc positions
    Except.ok
      [({ x := mean (positions.map Cartesian3.x),
          y := mean (positions.map Cartesian3.y),
          z := mean (positions.map Cartesian3.z) }, round2 area2)]

/-! ## Theorems: area claims -/

/-- C3 (counterexample): a direct `getArea` call with a single vertex does not
return 0 — the 2-position ring fails turf's `polygon` validation, i.e. the call
throws. -/
theorem c3_getArea_throws_on_one_point :
    AreaMeasure.getArea exScene [{ x := 1, y := 2, z := 3 }] =
      Except.error "Each LinearRing of a Polygon must have 4 or more Positions." := by
  unfold AreaMeasure.getArea cartesian2Lonlat turfPolygonRing
  simp [Bind.bind, Except.bind]

/-- C3 (amended): the area update path (`_updateLabelFunc`) with fewer than 3
points clears the labels and returns without computing an area and without any
exception (and a 1-point sequence produces no distance labels either: the planar
distance path publishes no running total).  But `getArea` itself, called directly
with fewer than 3 points, throws turf's ring-validation error instead of
returning 0. -/
theorem c3_small_input_update_path (sc : Scene) (ps : List Cartesian3)
    (h : ps.length < 3) :
    AreaMeasure.updateLabels sc ps = Except.ok [] ∧
    ∀ p : Cartesian3, publishedTotals [p] = [] := by
  constructor
  · unfold AreaMeasure.updateLabels
    rw [if_pos h]
  · intro p
    rfl

/-- C3 witness: the amended statement at a concrete 1-point input. -/
theorem c3_small_input_update_path_witness :
    ([{ x := 1, y := 2, z := 3 }] : List Cartesian3).length < 3 ∧
    (AreaMeasure.updateLabels exScene [{ x := 1, y := 2, z := 3 }] = Except.ok [] ∧
     ∀ p : Cartesian3, publishedTotals [p] = []) :=
  ⟨by norm_num,
   c3_small_input_update_path exScene [{ x := 1, y := 2, z := 3 }] (by norm_num)⟩

/-! ### Winding invariance of the turf ring area

The turf sum `Σᵢ (x[(i+2) mod N] − x[i]) · s[(i+1) mod N]` (with `x = rad ∘ lon`
and `s = sin ∘ rad ∘ lat`) telescopes into a cyclic shoelace sum
`Σᵢ (x[i+1]·s[i] − x[i]·s[i+1])`, which negates under reversal of the ring and is
unaffected by the duplicated closing vertex. -/

/-- The shoelace edge contribution between two consecutive (lon, lat) ring
entries. -/
noncomputable def edgeT (a b : ℝ × ℝ) : ℝ :=
  rad b.1 * Real.sin (rad a.2) - rad a.1 * Real.sin (rad b.2)

theorem edgeT_self (a : ℝ × ℝ) : edgeT a a = 0 := by
  unfold edgeT; ring

theorem edgeT_antisymm (a b : ℝ × ℝ) : edgeT a b = - edgeT b a := by
  unfold edgeT; ring

/-- Cyclic shoelace sum of an accessor of a length-`m+3` vertex list. -/
noncomputable def cycShoelace (f : ℕ → ℝ × ℝ) (m : ℕ) : ℝ :=
  (∑ i in Finset.range (m + 2), edgeT (f i) (f (i + 1))) + edgeT (f (m + 2)) (f 0)

/-- The turf ring-area sum over a length-`n+3` ring accessor telescopes into
shoelace form. -/
theorem turf_sum_eq_cyc (g : ℕ → ℝ × ℝ) (n : ℕ) :
    ∑ i in Finset.range (n + 3),
        (rad (g ((i + 2) % (n + 3))).1 - rad (g i).1) *
          Real.sin (rad (g ((i + 1) % (n + 3))).2)
      = (∑ i in Finset.range (n + 2), edgeT (g i) (g (i + 1))) +
          edgeT (g (n + 2)) (g 0) := by
  rw [Finset.sum_range_succ, Finset.sum_range_succ]
  have e1 : (n + 1 + 2) % (n + 3) = 0 := Nat.mod_self (n + 3)
  have e2 : (n + 1 + 1) % (n + 3) = n + 2 := Nat.mod_eq_of_lt (by omega)
  have e3 : (n + 2 + 2) % (n + 3) = 1 :=
    (Nat.add_mod_left (n + 3) 1).trans (Nat.mod_eq_of_lt (by omega))
  rw [e1, e2, e3]
  have hcong : ∀ i ∈ Finset.range (n + 1),
      (rad (g ((i + 2) % (n + 3))).1 - rad (g i).1) *
          Real.sin (rad (g ((i + 1) % (n + 3))).2)
        = rad (g (i + 2)).1 * Real.sin (rad (g (i + 1)).2) -
            rad (g i).1 * Real.sin (rad (g (i + 1)).2) := by
    intro i hi
    have hi' : i < n + 1 := Finset.mem_range.1 hi
    rw [Nat.mod_eq_of_lt (by omega), Nat.mod_eq_of_lt (by omega)]
    ring
  rw [Finset.sum_congr rfl hcong, Finset.sum_sub_distrib]
  have hcong2 : ∀ i ∈ Finset.range (n + 2),
      edgeT (g i) (g (i + 1))
        = rad (g (i + 1)).1 * Real.sin (rad (g i).2) -
            rad (g i).1 * Real.sin (rad (g (i + 1)).2) := by
    intro i _
    unfold edgeT; ring
  rw [Finset.sum_congr rfl hcong2, Finset.sum_sub_distrib]
  have h1 : ∑ i in Finset.range (n + 2), rad (g (i + 1)).1 * Real.sin (rad (g i).2)
      = (∑ i in Finset.range (n + 1),
          rad (g (i + 1 + 1)).1 * Real.sin (rad (g (i + 1)).2)) +
        rad (g (0 + 1)).1 * Real.sin (rad (g 0).2) :=
    Finset.sum_range_succ' (fun i => rad (g (i + 1)).1 * Real.sin (rad (g i).2)) (n + 1)
  have h2 : ∑ i in Finset.range (n + 2), rad (g i).1 * Real.sin (rad (g (i + 1)).2)
      = (∑ i in Finset.range (n + 1), rad (g i).1 * Real.sin (rad (g (i + 1)).2)) +
        rad (g (n + 1)).1 * Real.sin (rad (g (n + 1 + 1)).2) :=
    Finset.sum_range_succ (fun i => rad (g i).1 * Real.sin (rad (g (i + 1)).2)) (n + 1)
  have hn1 : ∀ i : ℕ, i + 1 + 1 = i + 2 := fun i => rfl
  simp only [hn1] at h1 h2
  unfold edgeT
  rw [h1, h2]
  ring

/-- Peeling the duplicated closing vertex off the cyclic shoelace sum. -/
theorem cyc_collapse (f : ℕ → ℝ × ℝ) (m : ℕ) (hdup : f (m + 3) = f 0) :
    (∑ i in Finset.range (m + 3), edgeT (f i) (f (i + 1))) + edgeT (f (m + 3)) (f 0)
      = cycShoelace f m := by
  unfold cycShoelace
  rw [Finset.sum_range_succ, hdup, edgeT_self]
  ring

/-- The cyclic shoelace sum depends only on the accessor values at `0 .. m+2`. -/
theorem cycShoelace_congr (f g : ℕ → ℝ × ℝ) (m : ℕ)
    (h : ∀ i, i ≤ m + 2 → f i = g i) : cycShoelace f m = cycShoelace g m := by
  unfold cycShoelace
  rw [h (m + 2) le_rfl, h 0 (by omega)]
  congr 1
  apply Finset.sum_congr rfl
  intro i hi
  have hi' : i < m + 2 := Finset.mem_range.1 hi
  rw [h i (by omega), h (i + 1) (by omega)]

/-- Reversing the vertex ring negates the cyclic shoelace sum. -/
theorem cycShoelace_reflect (q : ℕ → ℝ × ℝ) (m : ℕ) :
    cycShoelace (fun i => q (m + 2 - i)) m = - cycShoelace q m := by
  unfold cycShoelace
  have hsum : ∑ i in Finset.range (m + 2), edgeT (q (m + 2 - i)) (q (m + 2 - (i + 1)))
      = ∑ j in Finset.range (m + 2), edgeT (q (j + 1)) (q j) := by
    have hrefl := Finset.sum_range_reflect
      (fun j => edgeT (q (j + 1)) (q j)) (m + 2)
    rw [← hrefl]
    apply Finset.sum_congr rfl
    intro i hi
    have hi' : i < m + 2 := Finset.mem_range.1 hi
    have e1 : m + 2 - i = m + 2 - 1 - i + 1 := by omega
    have e2 : m + 2 - (i + 1) = m + 2 - 1 - i := by omega
    rw [e1, e2]
  have hneg : ∑ j in Finset.range (m + 2), edgeT (q (j + 1)) (q j)
      = - ∑ j in Finset.range (m + 2), edgeT (q j) (q (j + 1)) := by
    rw [← Finset.sum_neg_distrib]
    apply Finset.sum_congr rfl
    intro j _
    rw [edgeT_antisymm]
  rw [hsum, hneg]
  simp only [Nat.sub_self, Nat.sub_zero]
  rw [edgeT_antisymm (q 0) (q (m + 2))]
  ring

theorem getD_append_lt {α : Type} (l l' : List α) (d : α) (i : ℕ)
    (h : i < l.length) : (l ++ l').getD i d = l.getD i d := by
  induction l generalizing i with
  | nil => simp at h
  | cons a t ih =>
      cases i with
      | zero => rfl
      | succ i => simpa using ih i (Nat.lt_of_succ_lt_succ h)

theorem getD_append_self {α : Type} (l : List α) (a d : α) :
    (l ++ [a]).getD l.length d = a := by
  induction l with
  | nil => rfl
  | cons b t ih => exact ih

theorem headD_eq_getD_zero {α : Type} (l : List α) (d : α) :
    l.headD d = l.getD 0 d := by
  cases l <;> rfl

theorem getLastD_append_singleton {α : Type} (l : List α) (a d : α) :
    (l ++ [a]).getLastD d = a := by
  induction l with
  | nil => rfl
  | cons b t ih =>
      cases t with
      | nil => rfl
      | cons c u => simpa using ih

theorem headD_append_of_ne_nil {α : Type} (l l' : List α) (d : α) (h : l ≠ []) :
    (l ++ l').headD d = l.headD d := by
  cases l with
  | nil => exact absurd rfl h
  | cons a t => rfl

theorem getD_reverse {α : Type} (l : List α) (d : α) (i : ℕ) (h : i < l.length) :
    l.reverse.getD i d = l.getD (l.length - 1 - i) d := by
  have h' : i < l.reverse.length := by simpa using h
  have h'' : l.length - 1 - i < l.length := by omega
  rw [List.getD_eq_getElem l.reverse d h', List.getD_eq_getElem l d h'',
    List.getElem_reverse]

/-- The turf ring validation passes for the engine-closed ring built from a vertex
list of length ≥ 3 (the appended closing vertex makes the ring length ≥ 4 and its
last entry equal to its first). -/
theorem turfPolygonRing_closed_ok (q : List (ℝ × ℝ)) (m : ℕ)
    (hlen : q.length = m + 3) :
    turfPolygonRing (q ++ [q.headD (0, 0)]) = Except.ok (q ++ [q.headD (0, 0)]) := by
  have hne : q ≠ [] := by
    intro h
    rw [h] at hlen
    simp at hlen
  have hlen4 : ¬ (q ++ [q.headD (0, 0)]).length < 4 := by
    simp only [List.length_append, List.length_cons, List.length_nil, hlen]
    omega
  have heq : (q ++ [q.headD (0, 0)]).getLastD (0, 0) =
      (q ++ [q.headD (0, 0)]).headD (0, 0) := by
    rw [getLastD_append_singleton, headD_append_of_ne_nil _ _ _ hne]
  unfold turfPolygonRing
  rw [if_neg hlen4, if_neg (not_ne_iff.2 heq)]

/-- The turf ring area of the engine-closed ring, in cyclic-shoelace form. -/
theorem turfRingArea_closed_eq (q : List (ℝ × ℝ)) (m : ℕ)
    (hlen : q.length = m + 3) :
    turfRingArea (q ++ [q.headD (0, 0)])
      = cycShoelace (fun i => q.getD i (0, 0)) m * wgs84Radius * wgs84Radius / 2 := by
  set r := q ++ [q.headD (0, 0)] with hr
  have hrlen : r.length = m + 4 := by
    simp only [hr, List.length_append, List.length_cons, List.length_nil, hlen]
  unfold turfRingArea
  rw [if_pos (by rw [hrlen]; omega), hrlen]
  have hb := turf_sum_eq_cyc (fun i => r.getD i (0, 0)) (m + 1)
  have hnum : m + 1 + 3 = m + 4 := rfl
  have hnum2 : m + 1 + 2 = m + 3 := rfl
  rw [hnum, hnum2] at hb
  have hdup : r.getD (m + 3) (0, 0) = r.getD 0 (0, 0) := by
    rw [hr, show m + 3 = q.length by omega, getD_append_self,
      getD_append_lt _ _ _ _ (by omega), ← headD_eq_getD_zero]
  have hcol := cyc_collapse (fun i => r.getD i (0, 0)) m (by simpa using hdup)
  rw [hb, hcol, cycShoelace_congr (fun i => r.getD i (0, 0))
    (fun i => q.getD i (0, 0)) m
    (fun i hi => by rw [hr]; exact getD_append_lt _ _ _ _ (by omega))]

/-- Reversing the vertex list negates the turf ring area of the engine-closed
ring. -/
theorem turfRingArea_closed_reverse (q : List (ℝ × ℝ)) (m : ℕ)
    (hlen : q.length = m + 3) :
    turfRingArea (q.reverse ++ [q.reverse.headD (0, 0)])
      = - turfRingArea (q ++ [q.headD (0, 0)]) := by
  have hrevlen : q.reverse.length = m + 3 := by simp [hlen]
  rw [turfRingArea_closed_eq q.reverse m hrevlen, turfRingArea_closed_eq q m hlen]
  have hacc : ∀ i, i ≤ m + 2 →
      q.reverse.getD i (0, 0) = q.getD (m + 2 - i) (0, 0) := by
    intro i hi
    have hsub : q.length - 1 - i = m + 2 - i := by omega
    rw [getD_reverse q (0, 0) i (by omega), hsub]
  rw [cycShoelace_congr _ _ m hacc]
  have hrefl := cycShoelace_reflect (fun i => q.getD i (0, 0)) m
  rw [hrefl]
  ring

/-- C7: for every vertex sequence of at least 3 points, `AreaMeasure.getArea`
closes the ring itself by re-appending the first lon/lat vertex (so turf's
first-equals-last validation passes and no error is thrown), and the returned
area is non-negative and identical for the reversed (opposite-winding) vertex
order, since `@turf/area` takes the absolute value of the signed spherical ring
sum, which reversal negates. -/
theorem c7_getArea_nonneg_winding_invariant (sc : Scene) (ps : List Cartesian3)
    (h : 3 ≤ ps.length) :
    ∃ a : ℝ,
      AreaMeasure.getArea sc ps = Except.ok a ∧ 0 ≤ a ∧
      AreaMeasure.getArea sc ps.reverse = Except.ok a := by
  obtain ⟨m, hm⟩ : ∃ m, ps.length = m + 3 := ⟨ps.length - 3, by omega⟩
  have hqlen : (cartesian2Lonlat sc ps).length = m + 3 := by
    simp [cartesian2Lonlat, hm]
  have hqrev : cartesian2Lonlat sc ps.reverse = (cartesian2Lonlat sc ps).reverse := by
    simp [cartesian2Lonlat]
  set q := cartesian2Lonlat sc ps with hq
  have hrevlen : q.reverse.length = m + 3 := by simp [hqlen]
  refine ⟨|turfRingArea (q ++ [q.headD (0, 0)])|, ?_, abs_nonneg _, ?_⟩
  · unfold AreaMeasure.getArea
    rw [← hq, turfPolygonRing_closed_ok q m hqlen]
    simp [Bind.bind, Except.bind, turfPolygonArea]
  · unfold AreaMeasure.getArea
    rw [hqrev, turfPolygonRing_closed_ok q.reverse m hrevlen]
    show Except.ok (turfPolygonArea [q.reverse ++ [q.reverse.headD (0, 0)]]) =
      Except.ok |turfRingArea (q ++ [q.headD (0, 0)])|
    rw [show turfPolygonArea [q.reverse ++ [q.reverse.headD (0, 0)]]
          = |turfRingArea (q.reverse ++ [q.reverse.headD (0, 0)])| by
        unfold turfPolygonArea
        simp only [List.map_nil, List.sum_nil, sub_zero],
      turfRingArea_closed_reverse q m hqlen, abs_neg]

/-- A concrete triangle for the C7 witness. -/
noncomputable def exTriangle : List Cartesian3 :=
  [{ x := 0, y := 0, z := 0 }, { x := 1, y := 0, z := 0 }, { x := 0, y := 1, z := 0 }]

/-- C7 witness: the theorem applied to the concrete 3-vertex list `exTriangle`. -/
theorem c7_getArea_nonneg_winding_invariant_witness :
    3 ≤ exTriangle.length ∧
    ∃ a : ℝ,
      AreaMeasure.getArea exScene exTriangle = Except.ok a ∧ 0 ≤ a ∧
      AreaMeasure.getArea exScene exTriangle.reverse = Except.ok a :=
  ⟨by simp [exTriangle],
   c7_getArea_nonneg_winding_invariant exScene exTriangle (by simp [exTriangle])⟩

/-- C9: the `DESTROY` state is not terminal in the implementation.  For every
session state, after `destroy()` the `destroyed` getter reports `true`, yet a
subsequent `end()` — which raises no error, being a total state transformer —
resets the status to `INIT` and makes `destroyed` report `false` again. -/
theorem c9_destroy_not_terminal (s : MeasureState) :
    Measure.destroyed (Measure.destroy s) = true ∧
    (Measure.end' (Measure.destroy s)).status = Status.INIT ∧
    Measure.destroyed (Measure.end' (Measure.destroy s)) = false :=
  ⟨rfl, rfl, rfl⟩

end CesiumMeasure
